import Mathlib

/-!
Verification development for the versioned snapshot store
(`src/pipeline/state_manager.py`): a shallow embedding of the
`StateManager` class and proofs of the specification's claims about it.

Modelling conventions:
* A pandas `DataFrame` is modelled by its column names and integer-valued
  rows; `df.copy()` is the identity on such immutable values.
* Python dicts (`self.branches`, `self._memory_cache`, the temp directory
  contents) are modelled as association lists with Python dict semantics
  (update-in-place keeps the position, new keys are appended at the end).
* The temp directory is modelled by the association list `disk` mapping
  file names to parquet contents, plus a flag `temp_dir_exists`
  (`shutil.rmtree` in `cleanup` removes the directory itself; a spill
  into the missing directory fails like `DataFrame.to_parquet` would).
* `pd.Timestamp.now()` is modelled by a logical clock threaded through
  the state (`tick`).
* Exceptions are modelled by `Except Err`; every operation returns the
  state it leaves behind together with its `Except` outcome, so partial
  mutations made before a raise are preserved, exactly as in Python.
-/

deriving instance DecidableEq for Except

/-- A tabular dataset: the model of a pandas `DataFrame`. -/
structure DataFrame where
  cols : List String
  rows : List (List Int)
deriving DecidableEq, Repr

/-- Models `DataFrame.copy()`: on immutable model values a copy is the
value itself. -/
def DataFrame.copy (df : DataFrame) : DataFrame := df

/-- Models `StateManager._compute_hash`: md5 over
`pd.util.hash_pandas_object(df)`, which hashes the row values (not the
column names).  The digest is a function of the row values, modelled here
as those values themselves. -/
def computeHash (df : DataFrame) : List (List Int) := df.rows

/-- An opaque configuration dict, stored verbatim by the store. -/
abbrev Config := List (String × String)

/-- Model of the exceptions the Python code can raise.  Constructors carry
the data that appears in the exception message. -/
inductive Err where
  /-- `StateNotFoundError(f"State {state_key} not found")`. -/
  | stateNotFound (stateKey : String)
  /-- `ValueError(f"Branch '{branch_name}' does not exist")`. -/
  | branchDoesNotExist (branch : String)
  /-- `ValueError("Cannot delete main branch")`. -/
  | cannotDeleteMain
  /-- `ValueError("Cannot delete active branch")`. -/
  | cannotDeleteActive
  /-- `IndexError` from `list[-1]` or `list.pop(0)` on an empty list. -/
  | indexError
  /-- `KeyError` from indexing a dict with a missing key. -/
  | keyError (key : String)
  /-- `FileNotFoundError` from writing a parquet file into a directory
  that has been removed. -/
  | fileNotFound (path : String)
deriving DecidableEq, Repr

/-- Association-list lookup with Python dict semantics. -/
def lookupA {α : Type} : List (String × α) → String → Option α
  | [], _ => none
  | (k, v) :: rest, key => if k = key then some v else lookupA rest key

/-- Association-list insertion with Python dict semantics: an existing
key keeps its position, a new key is appended at the end. -/
def insertA {α : Type} : List (String × α) → String → α → List (String × α)
  | [], key, val => [(key, val)]
  | (k, v) :: rest, key, val =>
      if k = key then (k, val) :: rest else (k, v) :: insertA rest key val

/-- Association-list deletion (`del d[key]` / `dict.pop`): removes the
entry for `key`, if any. -/
def eraseA {α : Type} : List (String × α) → String → List (String × α)
  | [], _ => []
  | (k, v) :: rest, key => if k = key then rest else (k, v) :: eraseA rest key

/-- Models Python's `str.replace("::", "__")`: a greedy left-to-right scan
replacing non-overlapping occurrences. -/
def replaceColons : List Char → List Char
  | [] => []
  | [c] => [c]
  | c1 :: c2 :: rest =>
      if c1 = ':' ∧ c2 = ':' then '_' :: '_' :: replaceColons rest
      else c1 :: replaceColons (c2 :: rest)

/-- The cache key `f"{branch}::{state_id}"`. -/
def stateKeyOf (branch state_id : String) : String := branch ++ "::" ++ state_id

/-- The spill file name for a cache key:
`f"{state_key.replace('::', '__')}.parquet"`. -/
def diskNameOf (stateKey : String) : String :=
  String.mk (replaceColons stateKey.data) ++ ".parquet"

/-- Whether a file name matches the glob `f"{branch_name}__*.parquet"`
used by `delete_branch`. -/
def matchesGlob (branch_name fname : String) : Bool :=
  (branch_name ++ "__").data.isPrefixOf fname.data &&
    ".parquet".data.isSuffixOf fname.data

/-- Metadata for a single pipeline state (`StateRecord`). -/
structure StateRecord where
  id : String
  parent : Option String
  timestamp : Nat
  data_hash : List (List Int)
  row_count : Nat
  col_count : Nat
  config_snapshot : Config
  delta_summary : String
deriving DecidableEq, Repr

/-- A branch in the pipeline state tree (`Branch`); `forked_from` holds
the `(branch, state_id)` pair of the fork source. -/
structure Branch where
  created_at : Nat
  forked_from : Option (String × String)
  states : List StateRecord
deriving DecidableEq, Repr

/-- The full state of a `StateManager` instance. -/
structure StateManager where
  cache_size : Nat
  temp_dir_exists : Bool
  branches : List (String × Branch)
  active_branch : String
  memory_cache : List (String × DataFrame)
  access_order : List String
  disk : List (String × DataFrame)
  clock : Nat
deriving DecidableEq, Repr

/-- Models `pd.Timestamp.now()` with a logical clock. -/
def tick (m : StateManager) : Nat × StateManager :=
  (m.clock, { m with clock := m.clock + 1 })

/-- Models `StateManager.__init__`: one empty default branch, empty cache
and access order, a (fresh, hence empty) temp directory. -/
def StateManager.init (cache_size : Nat) (clock : Nat) : StateManager :=
  { cache_size := cache_size
    temp_dir_exists := true
    branches := [("main", { created_at := clock, forked_from := none, states := [] })]
    active_branch := "main"
    memory_cache := []
    access_order := []
    disk := []
    clock := clock + 1 }

/-- Models `StateManager._touch`: remove the key from the access order if
present, then append it at the most-recent end. -/
def StateManager.touch (m : StateManager) (state_key : String) : StateManager :=
  let order :=
    if state_key ∈ m.access_order then m.access_order.erase state_key else m.access_order
  { m with access_order := order ++ [state_key] }

/-- The result of the eviction loop of `_add_to_cache`: the remaining
access order, cache and disk, plus the outcome (`while` loop completion,
or the exception that interrupted it). -/
structure EvictResult where
  order : List String
  cache : List (String × DataFrame)
  disk : List (String × DataFrame)
  result : Except Err Unit
deriving DecidableEq, Repr

/-- Models the `while len(self._memory_cache) >= self.cache_size` eviction
loop of `_add_to_cache`: pop the least-recently-used key from the access
order, pop its dataframe from the cache, and persist it to disk.
`order.pop(0)` on an empty list raises `IndexError`; `cache.pop(key)` on
a missing key raises `KeyError`; writing into a removed temp directory
raises `FileNotFoundError`. -/
def evictAll (size : Nat) (dirExists : Bool) :
    List String → List (String × DataFrame) → List (String × DataFrame) → EvictResult
  | order, cache, disk =>
    if cache.length ≥ size then
      match order with
      | [] => { order := [], cache := cache, disk := disk, result := .error .indexError }
      | k :: rest =>
        match lookupA cache k with
        | none =>
            { order := rest, cache := cache, disk := disk, result := .error (.keyError k) }
        | some df =>
            if dirExists then
              evictAll size dirExists rest (eraseA cache k)
                (insertA disk (diskNameOf k) df)
            else
              { order := rest, cache := eraseA cache k, disk := disk
                result := .error (.fileNotFound (diskNameOf k)) }
    else
      { order := order, cache := cache, disk := disk, result := .ok () }

/-- Models `StateManager._add_to_cache`: refresh recency if the key is
already resident; otherwise evict down to below capacity, then insert. -/
def StateManager.add_to_cache (m : StateManager) (state_key : String) (df : DataFrame) :
    StateManager × Except Err Unit :=
  if (lookupA m.memory_cache state_key).isSome then
    (m.touch state_key, .ok ())
  else
    let r := evictAll m.cache_size m.temp_dir_exists m.access_order m.memory_cache m.disk
    match r.result with
    | .ok () =>
        ({ m with memory_cache := insertA r.cache state_key df
                  access_order := r.order ++ [state_key]
                  disk := r.disk }, .ok ())
    | .error e =>
        ({ m with memory_cache := r.cache, access_order := r.order, disk := r.disk },
          .error e)

/-- Models `StateManager.commit_state`: store a copy in the cache, then
append a metadata record to the active branch. -/
def StateManager.commit_state (m : StateManager) (state_id : String) (df : DataFrame)
    (config_snapshot : Config) (delta_summary : String) : StateManager × Except Err Unit :=
  let state_key := stateKeyOf m.active_branch state_id
  match m.add_to_cache state_key df.copy with
  | (m1, .error e) => (m1, .error e)
  | (m1, .ok ()) =>
    match lookupA m1.branches m1.active_branch with
    | none => (m1, .error (.keyError m1.active_branch))
    | some branch =>
      let parent := (branch.states.getLast?).map StateRecord.id
      let (t, m2) := tick m1
      let record : StateRecord :=
        { id := state_id, parent := parent, timestamp := t,
          data_hash := computeHash df, row_count := df.rows.length,
          col_count := df.cols.length, config_snapshot := config_snapshot,
          delta_summary := delta_summary }
      let branch1 := { branch with states := branch.states ++ [record] }
      ({ m2 with branches := insertA m2.branches m2.active_branch branch1 }, .ok ())

/-- Models `StateManager.load_state`: serve from the memory cache if
resident (refreshing recency), otherwise read the spill file and re-admit
it to the cache, otherwise raise `StateNotFoundError`. -/
def StateManager.load_state (m : StateManager) (branch state_id : String) :
    StateManager × Except Err DataFrame :=
  let state_key := stateKeyOf branch state_id
  match lookupA m.memory_cache state_key with
  | some df => (m.touch state_key, .ok df.copy)
  | none =>
    match lookupA m.disk (diskNameOf state_key) with
    | some df =>
      match m.add_to_cache state_key df with
      | (m1, .ok ()) => (m1, .ok df.copy)
      | (m1, .error e) => (m1, .error e)
    | none => (m, .error (.stateNotFound state_key))

/-- Models `StateManager.get_current_state`: `None` if the active branch
has no history, otherwise load its terminal state. -/
def StateManager.get_current_state (m : StateManager) :
    StateManager × Except Err (Option DataFrame) :=
  match lookupA m.branches m.active_branch with
  | none => (m, .error (.keyError m.active_branch))
  | some branch =>
    match branch.states.getLast? with
    | none => (m, .ok none)
    | some terminal =>
      match m.load_state m.active_branch terminal.id with
      | (m1, .ok df) => (m1, .ok (some df))
      | (m1, .error e) => (m1, .error e)

/-- Models `StateManager.get_current_state_id`. -/
def StateManager.get_current_state_id (m : StateManager) : Except Err (Option String) :=
  match lookupA m.branches m.active_branch with
  | none => .error (.keyError m.active_branch)
  | some branch => .ok ((branch.states.getLast?).map StateRecord.id)

/-- Models `StateManager._get_config_at_state`: scan the branch history in
order and return the config of the first record whose id matches, or `{}`
if none does. -/
def findConfig : List StateRecord → String → Config
  | [], _ => []
  | st :: rest, state_id =>
      if st.id = state_id then st.config_snapshot else findConfig rest state_id

/-- Models `StateManager._get_config_at_state` including the dict access
`self.branches[branch]` (a `KeyError` if the branch is unknown). -/
def StateManager.get_config_at_state (m : StateManager) (branch state_id : String) :
    Except Err Config :=
  match lookupA m.branches branch with
  | none => .error (.keyError branch)
  | some br => .ok (findConfig br.states state_id)

/-- Models `StateManager.create_branch`: load the fork-point dataset from
the currently active branch, create the new branch, switch to it, and
commit the fork point under the same state id. -/
def StateManager.create_branch (m : StateManager) (new_branch_name fork_from_state : String) :
    StateManager × Except Err Unit :=
  let source_branch := m.active_branch
  match m.load_state source_branch fork_from_state with
  | (m1, .error e) => (m1, .error e)
  | (m1, .ok source_df) =>
    match m1.get_config_at_state source_branch fork_from_state with
    | .error e => (m1, .error e)
    | .ok source_config =>
      let (t, m2) := tick m1
      let newBranch : Branch :=
        { created_at := t, forked_from := some (source_branch, fork_from_state), states := [] }
      let m3 := { m2 with branches := insertA m2.branches new_branch_name newBranch }
      let m4 := { m3 with active_branch := new_branch_name }
      m4.commit_state fork_from_state source_df source_config
        ("Forked from " ++ source_branch ++ "::" ++ fork_from_state)

/-- Models `StateManager.switch_branch`: `ValueError` if the branch is
unknown; otherwise set the active branch, then load
`self.branches[branch_name].states[-1].id` — an `IndexError` when the
target branch's history is empty. -/
def StateManager.switch_branch (m : StateManager) (branch_name : String) :
    StateManager × Except Err DataFrame :=
  match lookupA m.branches branch_name with
  | none => (m, .error (.branchDoesNotExist branch_name))
  | some branch =>
    let m1 := { m with active_branch := branch_name }
    match branch.states.getLast? with
    | none => (m1, .error .indexError)
    | some terminal => m1.load_state branch_name terminal.id

/-- One step of the removal loop of `delete_branch`: drop a key from the
cache and (when present) from the access order. -/
def erasePairStep (p : List (String × DataFrame) × List String) (key : String) :
    List (String × DataFrame) × List String :=
  (eraseA p.1 key, if key ∈ p.2 then p.2.erase key else p.2)

/-- Models `StateManager.delete_branch`: refuse to delete `"main"` or the
active branch; otherwise drop the cache entries whose key starts with
`f"{branch_name}::"`, unlink the files matching the glob
`f"{branch_name}__*.parquet"`, and remove the branch from the registry. -/
def StateManager.delete_branch (m : StateManager) (branch_name : String) :
    StateManager × Except Err Unit :=
  if branch_name = "main" then (m, .error .cannotDeleteMain)
  else if branch_name = m.active_branch then (m, .error .cannotDeleteActive)
  else
    let keyPre := branch_name ++ "::"
    let keys_to_remove :=
      (m.memory_cache.map Prod.fst).filter (fun k => keyPre.data.isPrefixOf k.data)
    let folded := keys_to_remove.foldl erasePairStep (m.memory_cache, m.access_order)
    let disk1 := m.disk.filter (fun f => !(matchesGlob branch_name f.1))
    ({ m with memory_cache := folded.1, access_order := folded.2,
              disk := disk1, branches := eraseA m.branches branch_name }, .ok ())

/-- The export bundle written by `export_pipeline`: `df_raw.parquet` (if
written), `state_store.json`, and `pipeline_config.json` (if written). -/
structure ExportBundle where
  df_raw_parquet : Option DataFrame
  state_store_branches : List (String × Branch)
  state_store_active : String
  pipeline_config : Option Config
deriving DecidableEq, Repr

/-- The part of `export_pipeline` after the `try`/`except` around the raw
dataset: serialize the registry and the terminal config. -/
def StateManager.export_rest (m : StateManager) (raw : Option DataFrame) :
    StateManager × Except Err ExportBundle :=
  match lookupA m.branches m.active_branch with
  | none => (m, .error (.keyError m.active_branch))
  | some branch =>
    (m, .ok { df_raw_parquet := raw,
              state_store_branches := m.branches,
              state_store_active := m.active_branch,
              pipeline_config := (branch.states.getLast?).map StateRecord.config_snapshot })

/-- Models `StateManager.export_pipeline`: try to export `main::df_raw`
(silently skipping it on `StateNotFoundError` — `except ...: pass`),
always export the full branch registry and active-branch marker, and
export the active branch's terminal config only when it has history. -/
def StateManager.export_pipeline (m : StateManager) :
    StateManager × Except Err ExportBundle :=
  match m.load_state "main" "df_raw" with
  | (m1, .error (.stateNotFound _)) => m1.export_rest none
  | (m1, .error e) => (m1, .error e)
  | (m1, .ok raw_df) => m1.export_rest (some raw_df)

/-- Models `StateManager.cleanup` (the purge operation): clear the memory
cache and access order and remove the whole temp directory. -/
def StateManager.cleanup (m : StateManager) : StateManager :=
  { m with memory_cache := [], access_order := [], disk := [], temp_dir_exists := false }

/-- Models `StateManager.reset`: `cleanup`, re-create the temp directory,
and re-initialize the registry to a single empty default branch. -/
def StateManager.reset (m : StateManager) : StateManager :=
  let m1 := m.cleanup
  let m2 := { m1 with temp_dir_exists := true }
  let (t, m3) := tick m2
  { m3 with branches := [("main", { created_at := t, forked_from := none, states := [] })]
            active_branch := "main"
            memory_cache := []
            access_order := [] }

/-- The public operations a collaborator can invoke, as listed in the
cache-bound claim. -/
inductive Op where
  | commit (state_id : String) (df : DataFrame) (config : Config) (delta : String)
  | load (branch state_id : String)
  | fork (new_branch_name fork_from_state : String)
  | switch (branch_name : String)
  | delete (branch_name : String)
  | purge
  | doReset
deriving DecidableEq, Repr

/-- Run one public operation, keeping the state it leaves behind
(whether or not it raised). -/
def applyOp (m : StateManager) : Op → StateManager
  | .commit sid df cfg d => (m.commit_state sid df cfg d).1
  | .load b s => (m.load_state b s).1
  | .fork nb c => (m.create_branch nb c).1
  | .switch b => (m.switch_branch b).1
  | .delete b => (m.delete_branch b).1
  | .purge => m.cleanup
  | .doReset => m.reset

/-- Run a sequence of public operations. -/
def runOps (m : StateManager) (ops : List Op) : StateManager :=
  ops.foldl applyOp m

/-! ### Concrete datasets and traces used by the scenario claims -/

/-- A five-row, one-column dataset. -/
def dfA : DataFrame := ⟨["a"], [[1], [2], [3], [4], [5]]⟩

/-- A second five-row dataset, distinct from `dfA`. -/
def dfB : DataFrame := ⟨["a"], [[6], [7], [8], [9], [10]]⟩

/-- A third five-row dataset, distinct from `dfA` and `dfB`. -/
def dfC : DataFrame := ⟨["a"], [[11], [12], [13], [14], [15]]⟩

/-- A one-row dataset used as a fork source. -/
def dfX : DataFrame := ⟨["a"], [[100]]⟩

/-- The capacity-2 scenario store: commit `s1`, `s2`, `s3` on `main`. -/
def scenarioCap2 : StateManager :=
  let m := StateManager.init 2 0
  let m := (m.commit_state "s1" dfA [] "d1").1
  let m := (m.commit_state "s2" dfB [] "d2").1
  (m.commit_state "s3" dfC [] "d3").1

/-! ### Claim theorems, part 1 -/

/-- C1: after `cleanup` (the purge operation) every `load_state` fails with
`StateNotFoundError` and no spill file remains in the store's storage
namespace; and `reset` leaves the store literally equal to a freshly
constructed instance (same capacity, one empty default branch active,
empty cache and disk), whose current state is none. -/
theorem purge_erases_all_and_reset_is_fresh (m : StateManager) (branch state_id : String) :
    (m.cleanup.load_state branch state_id).2
        = Except.error (Err.stateNotFound (stateKeyOf branch state_id)) ∧
    m.cleanup.memory_cache = [] ∧
    m.cleanup.disk = [] ∧
    m.reset = StateManager.init m.cache_size m.clock ∧
    (m.reset.get_current_state).2 = Except.ok none :=
  ⟨rfl, rfl, rfl, rfl, rfl⟩

/-- C2: with capacity 2 and commits `s1`, `s2`, `s3` on `main`: `s1` is no
longer resident but its spill file holds the committed rows; loading
`(main, s1)` succeeds via the cache-miss path with the committed dataset;
afterwards exactly `s1` and `s3` are resident and `s2` has been evicted to
its own spill file. -/
theorem cap2_scenario_eviction_and_reload :
    lookupA scenarioCap2.memory_cache "main::s1" = none ∧
    lookupA scenarioCap2.disk "main__s1.parquet" = some dfA ∧
    (scenarioCap2.load_state "main" "s1").2 = Except.ok dfA ∧
    ((scenarioCap2.load_state "main" "s1").1.memory_cache.map Prod.fst)
        = ["main::s3", "main::s1"] ∧
    lookupA (scenarioCap2.load_state "main" "s1").1.memory_cache "main::s1" = some dfA ∧
    lookupA (scenarioCap2.load_state "main" "s1").1.memory_cache "main::s3" = some dfC ∧
    lookupA (scenarioCap2.load_state "main" "s1").1.memory_cache "main::s2" = none ∧
    lookupA (scenarioCap2.load_state "main" "s1").1.disk "main__s2.parquet" = some dfB :=
  ⟨rfl, rfl, rfl, rfl, rfl, rfl, rfl, rfl⟩

/-- C6 (failing part): switching to a branch that exists but has an empty
history — the freshly constructed store's own `main` branch — does not
return none: the code evaluates `states[-1]` on an empty list and raises
`IndexError`.  Switching to an unknown branch does fail with the
branch-does-not-exist error, as claimed. -/
theorem switch_branch_empty_history_raises_index_error :
    (StateManager.init 5 0).switch_branch "main"
        = (StateManager.init 5 0, Except.error Err.indexError) ∧
    ((StateManager.init 5 0).switch_branch "ghost").2
        = Except.error (Err.branchDoesNotExist "ghost") :=
  ⟨rfl, rfl⟩

/-- C10: if the fork point exists neither in the memory cache nor on disk
for the active branch, `create_branch` fails with `StateNotFoundError` and
returns the store completely unchanged: the branch registry, the active
branch pointer, the cache and the disk are all exactly as before. -/
theorem create_branch_missing_state_leaves_store_unchanged
    (m : StateManager) (new_branch_name fork_from_state : String)
    (hcache : lookupA m.memory_cache (stateKeyOf m.active_branch fork_from_state) = none)
    (hdisk : lookupA m.disk (diskNameOf (stateKeyOf m.active_branch fork_from_state)) = none) :
    m.create_branch new_branch_name fork_from_state
        = (m, Except.error (Err.stateNotFound (stateKeyOf m.active_branch fork_from_state))) := by
  unfold StateManager.create_branch StateManager.load_state
  simp only [hcache, hdisk]

/-- Witness for `create_branch_missing_state_leaves_store_unchanged` at a
concrete store. -/
theorem create_branch_missing_state_witness :
    (StateManager.init 5 0).create_branch "b" "zzz"
        = (StateManager.init 5 0, Except.error (Err.stateNotFound (stateKeyOf "main" "zzz"))) :=
  create_branch_missing_state_leaves_store_unchanged (StateManager.init 5 0) "b" "zzz" rfl rfl

/-! ### Counterexample traces for the corrected claims -/

/-- Store after committing the id `"s"` twice on `main` with different
datasets and configs (capacity 5, so the key stays resident throughout). -/
def doubleCommit : StateManager :=
  let m := StateManager.init 5 0
  let m := (m.commit_state "s" dfA [("imputation", "mean")] "first").1
  (m.commit_state "s" dfB [("imputation", "median")] "second").1

/-- Counterexample to C4: after the second `commit_state` of the already
resident key `(main, s)` with the new dataset `dfB`, the cache entry still
holds the previously committed `dfA`, and a load right after the commit
returns `dfA`, not the committed `dfB`. -/
theorem commit_resident_key_keeps_stale_dataset :
    lookupA doubleCommit.memory_cache "main::s" = some dfA ∧
    (doubleCommit.load_state "main" "s").2 = Except.ok dfA ∧
    dfA ≠ dfB :=
  ⟨rfl, rfl, by decide⟩

/-- Counterexample to C5: with two records of id `"s"` in `main`'s history
(the terminal one committed with `dfB` and config `median`), `load_state`
returns the dataset of the EARLIEST commit under that id and
`_get_config_at_state` returns the config of the EARLIEST record, not the
terminal occurrence. -/
theorem duplicate_id_load_and_config_use_first_occurrence :
    ((lookupA doubleCommit.branches "main").map fun br => br.states.map StateRecord.id)
        = some ["s", "s"] ∧
    (doubleCommit.load_state "main" "s").2 = Except.ok dfA ∧
    doubleCommit.get_config_at_state "main" "s" = Except.ok [("imputation", "mean")] ∧
    ((lookupA doubleCommit.branches "main").map fun br =>
        (br.states.getLast?).map StateRecord.config_snapshot)
        = some (some [("imputation", "median")]) ∧
    dfA ≠ dfB ∧
    ([("imputation", "mean")] : Config) ≠ [("imputation", "median")] :=
  ⟨rfl, rfl, rfl, rfl, by decide, by decide⟩

/-- A reachable store with branches `main` (active), `exp__2` and `exp`,
where branch `exp__2` owns the spill files `exp__2__s1.parquet` and
`exp__2__s2.parquet` (capacity 1 forces every older entry to disk). -/
def deleteCollision : StateManager :=
  let m := StateManager.init 1 0
  let m := (m.commit_state "s1" dfA [] "d").1
  let m := (m.create_branch "exp__2" "s1").1
  let m := (m.commit_state "s2" dfB [] "d").1
  let m := (m.switch_branch "main").1
  let m := (m.create_branch "exp" "s1").1
  (m.switch_branch "main").1

/-- Counterexample to C7: deleting branch `exp` (neither default nor
active) also unlinks the spill files of the UNRELATED branch `exp__2`,
because the glob `exp__*.parquet` matches them by name prefix: before the
deletion `load_state("exp__2", "s1")` succeeds, afterwards it fails with
`StateNotFoundError` even though `exp__2` is still registered. -/
theorem delete_branch_removes_other_branches_spill_files :
    (deleteCollision.load_state "exp__2" "s1").2 = Except.ok dfA ∧
    (deleteCollision.delete_branch "exp").2 = Except.ok () ∧
    (lookupA (deleteCollision.delete_branch "exp").1.branches "exp__2").isSome = true ∧
    ((deleteCollision.delete_branch "exp").1.load_state "exp__2" "s1").2
        = Except.error (Err.stateNotFound "exp__2::s1") :=
  ⟨rfl, rfl, rfl, rfl⟩

/-- Counterexample to C8: on a fresh store the load of the origin
checkpoint `main::df_raw` fails with `StateNotFoundError`, yet
`export_pipeline` succeeds (the error is swallowed by `except ...: pass`)
and writes neither the origin dataset nor a config artifact. -/
theorem export_swallows_origin_load_failure :
    ((StateManager.init 5 0).load_state "main" "df_raw").2
        = Except.error (Err.stateNotFound "main::df_raw") ∧
    (StateManager.init 5 0).export_pipeline
        = (StateManager.init 5 0,
           Except.ok { df_raw_parquet := none,
                       state_store_branches :=
                         [("main", { created_at := 0, forked_from := none, states := [] })],
                       state_store_active := "main",
                       pipeline_config := none }) :=
  ⟨rfl, rfl⟩

/-- A reachable store in which the key `"b::x__s"` is resident in the
cache with the dataset `dfB` (admitted by `load_state("b", "x__s")` from
the spill file `b__x__s.parquet` of branch `b::x`), while no branch named
`"b"` exists and the active branch `main` holds checkpoint `"x__s"` with
the different dataset `dfX`. -/
def forkCollision : StateManager :=
  let m := StateManager.init 2 0
  let m := (m.commit_state "seed" dfA [] "d").1
  let m := (m.create_branch "b::x" "seed").1
  let m := (m.commit_state "s" dfB [] "d").1
  let m := (m.commit_state "t" dfC [] "d").1
  let m := (m.switch_branch "main").1
  let m := (m.commit_state "x__s" dfX [] "d").1
  (m.load_state "b" "x__s").1

/-- Counterexample to C9: forking the genuinely new branch `"b"` from
checkpoint `"x__s"` of the active branch `main` and loading the new
branch's current state yields `dfB` — the stale resident cache entry under
the colliding key `"b::x__s"` — whose content hash differs from
`load("main", "x__s") = dfX`. -/
theorem fork_round_trip_returns_stale_dataset :
    lookupA forkCollision.branches "b" = none ∧
    (forkCollision.load_state "main" "x__s").2 = Except.ok dfX ∧
    (forkCollision.create_branch "b" "x__s").2 = Except.ok () ∧
    ((forkCollision.create_branch "b" "x__s").1.get_current_state).2
        = Except.ok (some dfB) ∧
    ((forkCollision.create_branch "b" "x__s").1.load_state "main" "x__s").2
        = Except.ok dfX ∧
    computeHash dfB ≠ computeHash dfX :=
  ⟨rfl, rfl, rfl, rfl, rfl, by decide⟩

/-! ### Association-list lemmas -/

theorem lookupA_eq_none_iff {α : Type} (l : List (String × α)) (k : String) :
    lookupA l k = none ↔ k ∉ l.map Prod.fst := by
  induction l with
  | nil => simp [lookupA]
  | cons p rest ih =>
    obtain ⟨a, v⟩ := p
    by_cases h : a = k
    · subst h
      simp [lookupA]
    · simp [lookupA, h, ih, Ne.symm h]

theorem lookupA_isSome_iff {α : Type} (l : List (String × α)) (k : String) :
    (lookupA l k).isSome = true ↔ k ∈ l.map Prod.fst := by
  rw [Option.isSome_iff_ne_none, not_iff_comm, ← lookupA_eq_none_iff]

theorem lookupA_insertA_self {α : Type} (l : List (String × α)) (k : String) (v : α) :
    lookupA (insertA l k v) k = some v := by
  induction l with
  | nil => simp [insertA, lookupA]
  | cons p rest ih =>
    obtain ⟨a, w⟩ := p
    by_cases h : a = k
    · simp [insertA, lookupA, h]
    · simp [insertA, lookupA, h, ih]

theorem lookupA_insertA_ne {α : Type} (l : List (String × α)) (k q : String) (v : α)
    (h : q ≠ k) : lookupA (insertA l k v) q = lookupA l q := by
  induction l with
  | nil => simp [insertA, lookupA, Ne.symm h]
  | cons p rest ih =>
    obtain ⟨a, w⟩ := p
    by_cases ha : a = k
    · subst ha
      simp [insertA, lookupA, Ne.symm h]
    · simp only [insertA, if_neg ha, lookupA]
      by_cases hq : a = q <;> simp [hq, ih]

theorem insertA_keys_of_not_mem {α : Type} (l : List (String × α)) (k : String) (v : α)
    (h : k ∉ l.map Prod.fst) :
    (insertA l k v).map Prod.fst = l.map Prod.fst ++ [k] := by
  induction l with
  | nil => simp [insertA]
  | cons p rest ih =>
    obtain ⟨a, w⟩ := p
    simp only [List.map_cons, List.mem_cons] at h
    push_neg at h
    simp [insertA, Ne.symm h.1, ih h.2]

theorem eraseA_keys {α : Type} (l : List (String × α)) (k : String) :
    (eraseA l k).map Prod.fst = (l.map Prod.fst).erase k := by
  induction l with
  | nil => simp [eraseA]
  | cons p rest ih =>
    obtain ⟨a, w⟩ := p
    by_cases h : a = k
    · subst h
      simp [eraseA, List.erase_cons_head]
    · simp [eraseA, h, List.erase_cons_tail, ih]

theorem eraseA_length_le {α : Type} (l : List (String × α)) (k : String) :
    (eraseA l k).length ≤ l.length := by
  induction l with
  | nil => simp [eraseA]
  | cons p rest ih =>
    obtain ⟨a, w⟩ := p
    by_cases h : a = k <;> simp [eraseA, h]
    omega

theorem eraseA_of_not_mem {α : Type} (l : List (String × α)) (k : String)
    (h : k ∉ l.map Prod.fst) : eraseA l k = l := by
  induction l with
  | nil => rfl
  | cons p rest ih =>
    obtain ⟨a, w⟩ := p
    simp only [List.map_cons, List.mem_cons] at h
    push_neg at h
    simp [eraseA, Ne.symm h.1, ih h.2]

theorem lookupA_eraseA_ne {α : Type} (l : List (String × α)) (k q : String) (h : q ≠ k) :
    lookupA (eraseA l k) q = lookupA l q := by
  induction l with
  | nil => rfl
  | cons p rest ih =>
    obtain ⟨a, w⟩ := p
    by_cases ha : a = k
    · subst ha
      simp [eraseA, lookupA, Ne.symm h]
    · simp only [eraseA, if_neg ha, lookupA]
      by_cases hq : a = q <;> simp [hq, ih]

theorem lookupA_eraseA_self {α : Type} (l : List (String × α)) (k : String)
    (h : (l.map Prod.fst).Nodup) : lookupA (eraseA l k) k = none := by
  induction l with
  | nil => rfl
  | cons p rest ih =>
    obtain ⟨a, w⟩ := p
    simp only [List.map_cons, List.nodup_cons] at h
    by_cases ha : a = k
    · subst ha
      simp only [eraseA, if_pos rfl]
      rw [lookupA_eq_none_iff]
      exact h.1
    · simp [eraseA, ha, lookupA, ih h.2]

theorem lookupA_filter {α : Type} (l : List (String × α)) (p : String → Bool) (k : String) :
    lookupA (l.filter fun e => p e.1) k = if p k then lookupA l k else none := by
  induction l with
  | nil => simp [lookupA]
  | cons e rest ih =>
    obtain ⟨a, w⟩ := e
    by_cases ha : a = k
    · subst ha
      by_cases hp : p a <;> simp [List.filter_cons, hp, lookupA, ih]
    · by_cases hp : p a <;> simp [List.filter_cons, hp, lookupA, ha, ih]

/-! ### The cache bookkeeping invariant -/

/-- The keys currently resident in the memory cache. -/
def cacheKeys (m : StateManager) : List String := m.memory_cache.map Prod.fst

/-- The cache bookkeeping invariant maintained by every operation:
resident keys are distinct, the access order is a permutation of them,
and at most `cache_size` entries are resident. -/
def CacheInv (m : StateManager) : Prop :=
  (cacheKeys m).Nodup ∧ (cacheKeys m).Perm m.access_order ∧
    m.memory_cache.length ≤ m.cache_size

/-- Structural properties of the eviction loop: it only removes cache
entries (keeping keys distinct and in sync with the remaining access
order), it never grows the cache, it completes normally only with the
cache strictly below capacity, and with the temp directory present and a
positive capacity it always completes normally. -/
theorem evictAll_spec (size : Nat) (dir : Bool) (order : List String)
    (cache disk : List (String × DataFrame))
    (hnd : (cache.map Prod.fst).Nodup) (hperm : (cache.map Prod.fst).Perm order) :
    ((evictAll size dir order cache disk).cache.map Prod.fst).Nodup ∧
    ((evictAll size dir order cache disk).cache.map Prod.fst).Perm
        (evictAll size dir order cache disk).order ∧
    (∀ q, q ∈ (evictAll size dir order cache disk).cache.map Prod.fst →
        q ∈ cache.map Prod.fst) ∧
    (evictAll size dir order cache disk).cache.length ≤ cache.length ∧
    ((evictAll size dir order cache disk).result = Except.ok () →
        (evictAll size dir order cache disk).cache.length < size) ∧
    (1 ≤ size → dir = true → (evictAll size dir order cache disk).result = Except.ok ()) := by
  induction order generalizing cache disk with
  | nil =>
    rw [evictAll]
    by_cases hlen : cache.length ≥ size
    · have hkeys : cache.map Prod.fst = [] := List.Perm.eq_nil hperm
      have hcache : cache.length = 0 := by simpa using congrArg List.length hkeys
      simp only [if_pos hlen]
      refine ⟨hnd, hperm, fun q hq => hq, le_refl _, ?_, ?_⟩
      · intro h
        exact absurd h (by simp)
      · intro h1 _
        omega
    · simp only [if_neg hlen]
      exact ⟨hnd, hperm, fun q hq => hq, le_refl _, fun _ => by omega, fun _ _ => by trivial⟩
  | cons k rest ih =>
    rw [evictAll]
    by_cases hlen : cache.length ≥ size
    · simp only [if_pos hlen]
      have hkmem : k ∈ cache.map Prod.fst := (hperm.mem_iff).2 (List.mem_cons_self k rest)
      cases hl : lookupA cache k with
      | none =>
        rw [lookupA_eq_none_iff] at hl
        exact absurd hkmem hl
      | some df =>
        simp only [hl]
        have hnd2 : ((eraseA cache k).map Prod.fst).Nodup := by
          rw [eraseA_keys]
          exact hnd.erase k
        have hperm2 : ((eraseA cache k).map Prod.fst).Perm rest := by
          rw [eraseA_keys]
          have h3 := hperm.erase k
          simpa [List.erase_cons_head] using h3
        by_cases hdir : dir = true
        · rw [if_pos hdir]
          obtain ⟨a1, a2, a3, a4, a5, a6⟩ :=
            ih (eraseA cache k) (insertA disk (diskNameOf k) df) hnd2 hperm2
          refine ⟨a1, a2, ?_, ?_, a5, a6⟩
          · intro q hq
            have hq2 := a3 q hq
            rw [eraseA_keys] at hq2
            exact List.mem_of_mem_erase hq2
          · exact le_trans a4 (eraseA_length_le cache k)
        · rw [if_neg hdir]
          refine ⟨hnd2, hperm2, ?_, eraseA_length_le cache k, ?_, ?_⟩
          · intro q hq
            rw [eraseA_keys] at hq
            exact List.mem_of_mem_erase hq
          · intro h
            exact absurd h (by simp)
          · intro _ h2
            exact absurd h2 hdir
    · simp only [if_neg hlen]
      exact ⟨hnd, hperm, fun q hq => hq, le_refl _, fun _ => by omega, fun _ _ => by trivial⟩

/-- `CacheInv` depends only on the cache fields, so any state sharing them
satisfies it. -/
theorem CacheInv_of_fields {m m2 : StateManager} (h : CacheInv m)
    (hc : m2.memory_cache = m.memory_cache) (ho : m2.access_order = m.access_order)
    (hs : m2.cache_size = m.cache_size) : CacheInv m2 := by
  unfold CacheInv cacheKeys at h ⊢
  rw [hc, ho, hs]
  exact h

/-- `_touch` changes only the access order. -/
theorem touch_frame (m : StateManager) (k : String) :
    (m.touch k).memory_cache = m.memory_cache ∧ (m.touch k).cache_size = m.cache_size ∧
    (m.touch k).temp_dir_exists = m.temp_dir_exists ∧ (m.touch k).branches = m.branches ∧
    (m.touch k).active_branch = m.active_branch ∧ (m.touch k).disk = m.disk ∧
    (m.touch k).clock = m.clock :=
  ⟨rfl, rfl, rfl, rfl, rfl, rfl, rfl⟩

/-- `_touch` of a resident key preserves the cache invariant. -/
theorem touch_CacheInv (m : StateManager) (k : String) (hk : k ∈ cacheKeys m)
    (h : CacheInv m) : CacheInv (m.touch k) := by
  obtain ⟨h1, h2, h3⟩ := h
  have hko : k ∈ m.access_order := h2.mem_iff.1 hk
  refine ⟨h1, ?_, h3⟩
  show (cacheKeys m).Perm
      ((if k ∈ m.access_order then m.access_order.erase k else m.access_order) ++ [k])
  rw [if_pos hko]
  exact h2.trans ((List.perm_cons_erase hko).trans
    (List.perm_append_singleton k (m.access_order.erase k)).symm)

/-- `_add_to_cache` preserves the cache invariant (in particular the
capacity bound), whether it completes or raises mid-eviction. -/
theorem add_to_cache_CacheInv (m : StateManager) (k : String) (df : DataFrame)
    (h : CacheInv m) : CacheInv (m.add_to_cache k df).1 := by
  obtain ⟨h1, h2, h3⟩ := h
  unfold StateManager.add_to_cache
  by_cases hres : (lookupA m.memory_cache k).isSome
  · rw [if_pos hres]
    exact touch_CacheInv m k ((lookupA_isSome_iff _ _).1 hres) ⟨h1, h2, h3⟩
  · rw [if_neg hres]
    obtain ⟨a1, a2, a3, a4, a5, a6⟩ :=
      evictAll_spec m.cache_size m.temp_dir_exists m.access_order m.memory_cache m.disk h1 h2
    have hknot : k ∉ m.memory_cache.map Prod.fst := by
      rw [← lookupA_isSome_iff]
      simpa using hres
    cases hE : (evictAll m.cache_size m.temp_dir_exists m.access_order m.memory_cache
        m.disk).result with
    | ok u =>
      cases u
      rw [hE] at a5
      simp only [hE]
      have hknot2 : k ∉ (evictAll m.cache_size m.temp_dir_exists m.access_order
          m.memory_cache m.disk).cache.map Prod.fst := fun hc => hknot (a3 k hc)
      have hkeys := insertA_keys_of_not_mem
        (evictAll m.cache_size m.temp_dir_exists m.access_order m.memory_cache m.disk).cache
        k df hknot2
      refine ⟨?_, ?_, ?_⟩
      · show ((insertA _ k df).map Prod.fst).Nodup
        rw [hkeys]
        simp [List.nodup_append, a1, hknot2]
      · show ((insertA _ k df).map Prod.fst).Perm (_ ++ [k])
        rw [hkeys]
        exact a2.append_right [k]
      · show (insertA _ k df).length ≤ m.cache_size
        have hlen : (insertA (evictAll m.cache_size m.temp_dir_exists m.access_order
            m.memory_cache m.disk).cache k df).length
            = (evictAll m.cache_size m.temp_dir_exists m.access_order m.memory_cache
                m.disk).cache.length + 1 := by
          have := congrArg List.length hkeys
          simpa using this
        rw [hlen]
        exact Nat.succ_le_of_lt (a5 rfl)
    | error e =>
      simp only [hE]
      exact ⟨a1, a2, le_trans a4 h3⟩

/-- `_add_to_cache` never changes the capacity, registry, active branch,
directory flag or clock. -/
theorem add_to_cache_frame (m : StateManager) (k : String) (df : DataFrame) :
    (m.add_to_cache k df).1.cache_size = m.cache_size ∧
    (m.add_to_cache k df).1.temp_dir_exists = m.temp_dir_exists ∧
    (m.add_to_cache k df).1.branches = m.branches ∧
    (m.add_to_cache k df).1.active_branch = m.active_branch ∧
    (m.add_to_cache k df).1.clock = m.clock := by
  unfold StateManager.add_to_cache
  by_cases hres : (lookupA m.memory_cache k).isSome
  · rw [if_pos hres]
    exact ⟨rfl, rfl, rfl, rfl, rfl⟩
  · rw [if_neg hres]
    cases hE : (evictAll m.cache_size m.temp_dir_exists m.access_order m.memory_cache
        m.disk).result with
    | ok u =>
      cases u
      simp [hE]
    | error e =>
      simp [hE]

/-- `commit_state` preserves the cache invariant. -/
theorem commit_state_CacheInv (m : StateManager) (sid : String) (df : DataFrame)
    (cfg : Config) (d : String) (h : CacheInv m) :
    CacheInv (m.commit_state sid df cfg d).1 := by
  unfold StateManager.commit_state
  dsimp only
  have hac := add_to_cache_CacheInv m (stateKeyOf m.active_branch sid) df.copy h
  cases hE : m.add_to_cache (stateKeyOf m.active_branch sid) df.copy with
  | mk m1 res =>
    rw [hE] at hac
    cases res with
    | error e => simpa using hac
    | ok u =>
      cases u
      cases hB : lookupA m1.branches m1.active_branch with
      | none => simpa [hB] using hac
      | some br =>
        simp only [hB]
        exact CacheInv_of_fields hac rfl rfl rfl

/-- `commit_state` never changes the capacity, directory flag or active
branch. -/
theorem commit_state_frame (m : StateManager) (sid : String) (df : DataFrame)
    (cfg : Config) (d : String) :
    (m.commit_state sid df cfg d).1.cache_size = m.cache_size ∧
    (m.commit_state sid df cfg d).1.temp_dir_exists = m.temp_dir_exists ∧
    (m.commit_state sid df cfg d).1.active_branch = m.active_branch := by
  unfold StateManager.commit_state
  dsimp only
  have hfr := add_to_cache_frame m (stateKeyOf m.active_branch sid) df.copy
  cases hE : m.add_to_cache (stateKeyOf m.active_branch sid) df.copy with
  | mk m1 res =>
    rw [hE] at hfr
    obtain ⟨f1, f2, f3, f4, f5⟩ := hfr
    cases res with
    | error e => exact ⟨f1, f2, f4⟩
    | ok u =>
      cases u
      cases hB : lookupA m1.branches m1.active_branch with
      | none =>
        simp only [hB]
        exact ⟨f1, f2, f4⟩
      | some br =>
        simp only [hB]
        exact ⟨f1, f2, f4⟩

/-- `load_state` preserves the cache invariant. -/
theorem load_state_CacheInv (m : StateManager) (b s : String) (h : CacheInv m) :
    CacheInv (m.load_state b s).1 := by
  unfold StateManager.load_state
  cases hC : lookupA m.memory_cache (stateKeyOf b s) with
  | some df =>
    simp only [hC]
    refine touch_CacheInv m _ ?_ h
    unfold cacheKeys
    rw [← lookupA_isSome_iff, hC]
    rfl
  | none =>
    simp only [hC]
    cases hD : lookupA m.disk (diskNameOf (stateKeyOf b s)) with
    | none => simpa [hD] using h
    | some df =>
      simp only [hD]
      have hac := add_to_cache_CacheInv m (stateKeyOf b s) df h
      cases hE : m.add_to_cache (stateKeyOf b s) df with
      | mk m1 res =>
        rw [hE] at hac
        cases res with
        | ok u =>
          cases u
          simpa using hac
        | error e => simpa using hac

/-- `load_state` never changes the capacity, directory flag, registry or
active branch. -/
theorem load_state_frame (m : StateManager) (b s : String) :
    (m.load_state b s).1.cache_size = m.cache_size ∧
    (m.load_state b s).1.temp_dir_exists = m.temp_dir_exists ∧
    (m.load_state b s).1.branches = m.branches ∧
    (m.load_state b s).1.active_branch = m.active_branch ∧
    (m.load_state b s).1.clock = m.clock := by
  unfold StateManager.load_state
  cases hC : lookupA m.memory_cache (stateKeyOf b s) with
  | some df =>
    simp only [hC]
    exact ⟨rfl, rfl, rfl, rfl, rfl⟩
  | none =>
    simp only [hC]
    cases hD : lookupA m.disk (diskNameOf (stateKeyOf b s)) with
    | none =>
      simp [hD]
    | some df =>
      simp only [hD]
      have hfr := add_to_cache_frame m (stateKeyOf b s) df
      cases hE : m.add_to_cache (stateKeyOf b s) df with
      | mk m1 res =>
        rw [hE] at hfr
        cases res with
        | ok u =>
          cases u
          simpa using hfr
        | error e => simpa using hfr

/-- `create_branch` preserves the cache invariant. -/
theorem create_branch_CacheInv (m : StateManager) (nb c : String) (h : CacheInv m) :
    CacheInv (m.create_branch nb c).1 := by
  unfold StateManager.create_branch
  dsimp only
  have hl := load_state_CacheInv m m.active_branch c h
  cases hE : m.load_state m.active_branch c with
  | mk m1 res =>
    rw [hE] at hl
    cases res with
    | error e => simpa using hl
    | ok df =>
      cases hG : m1.get_config_at_state m.active_branch c with
      | error e => simpa [hG] using hl
      | ok cfg =>
        simp only [hG]
        exact commit_state_CacheInv _ c df cfg _ (CacheInv_of_fields hl rfl rfl rfl)

/-- `create_branch` never changes the capacity or directory flag. -/
theorem create_branch_frame (m : StateManager) (nb c : String) :
    (m.create_branch nb c).1.cache_size = m.cache_size ∧
    (m.create_branch nb c).1.temp_dir_exists = m.temp_dir_exists := by
  unfold StateManager.create_branch
  dsimp only
  have hlf := load_state_frame m m.active_branch c
  cases hE : m.load_state m.active_branch c with
  | mk m1 res =>
    rw [hE] at hlf
    obtain ⟨f1, f2, f3, f4, f5⟩ := hlf
    cases res with
    | error e => exact ⟨f1, f2⟩
    | ok df =>
      cases hG : m1.get_config_at_state m.active_branch c with
      | error e =>
        simp only [hG]
        exact ⟨f1, f2⟩
      | ok cfg =>
        simp only [hG]
        have hcf := commit_state_frame
          { m1 with
              clock := m1.clock + 1,
              branches := insertA m1.branches nb
                { created_at := m1.clock,
                  forked_from := some (m.active_branch, c), states := [] },
              active_branch := nb }
          c df cfg ("Forked from " ++ m.active_branch ++ "::" ++ c)
        exact ⟨hcf.1.trans f1, hcf.2.1.trans f2⟩

/-- `switch_branch` preserves the cache invariant. -/
theorem switch_branch_CacheInv (m : StateManager) (b : String) (h : CacheInv m) :
    CacheInv (m.switch_branch b).1 := by
  unfold StateManager.switch_branch
  cases hB : lookupA m.branches b with
  | none => simpa using h
  | some br =>
    simp only [hB]
    cases hT : br.states.getLast? with
    | none => exact CacheInv_of_fields h rfl rfl rfl
    | some st =>
      simp only [hT]
      exact load_state_CacheInv _ b st.id (CacheInv_of_fields h rfl rfl rfl)

/-- `switch_branch` never changes the capacity or directory flag. -/
theorem switch_branch_frame (m : StateManager) (b : String) :
    (m.switch_branch b).1.cache_size = m.cache_size ∧
    (m.switch_branch b).1.temp_dir_exists = m.temp_dir_exists := by
  unfold StateManager.switch_branch
  cases hB : lookupA m.branches b with
  | none => exact ⟨rfl, rfl⟩
  | some br =>
    simp only [hB]
    cases hT : br.states.getLast? with
    | none => exact ⟨rfl, rfl⟩
    | some st =>
      simp only [hT]
      have hlf := load_state_frame { m with active_branch := b } b st.id
      exact ⟨hlf.1, hlf.2.1⟩

/-- The cache/access-order removal loop of `delete_branch` keeps the keys
distinct and in sync and never grows the cache. -/
theorem erase_fold_inv (S : List String) (cache : List (String × DataFrame))
    (order : List String) (hnd : (cache.map Prod.fst).Nodup)
    (hperm : (cache.map Prod.fst).Perm order) :
    ((S.foldl erasePairStep (cache, order)).1.map Prod.fst).Nodup ∧
    ((S.foldl erasePairStep (cache, order)).1.map Prod.fst).Perm
      (S.foldl erasePairStep (cache, order)).2 ∧
    (S.foldl erasePairStep (cache, order)).1.length ≤ cache.length := by
  induction S generalizing cache order with
  | nil => exact ⟨hnd, hperm, le_refl _⟩
  | cons k S ih =>
    simp only [List.foldl_cons, erasePairStep]
    by_cases hko : k ∈ order
    · rw [if_pos hko]
      have hnd2 : ((eraseA cache k).map Prod.fst).Nodup := by
        rw [eraseA_keys]
        exact hnd.erase k
      have hperm2 : ((eraseA cache k).map Prod.fst).Perm (order.erase k) := by
        rw [eraseA_keys]
        exact hperm.erase k
      obtain ⟨a1, a2, a3⟩ := ih (eraseA cache k) (order.erase k) hnd2 hperm2
      exact ⟨a1, a2, le_trans a3 (eraseA_length_le cache k)⟩
    · rw [if_neg hko]
      have hkm : k ∉ cache.map Prod.fst := fun hc => hko (hperm.mem_iff.1 hc)
      rw [eraseA_of_not_mem cache k hkm]
      exact ih cache order hnd hperm

/-- `delete_branch` preserves the cache invariant. -/
theorem delete_branch_CacheInv (m : StateManager) (b : String) (h : CacheInv m) :
    CacheInv (m.delete_branch b).1 := by
  obtain ⟨h1, h2, h3⟩ := h
  unfold StateManager.delete_branch
  by_cases hb1 : b = "main"
  · rw [if_pos hb1]
    exact ⟨h1, h2, h3⟩
  · rw [if_neg hb1]
    by_cases hb2 : b = m.active_branch
    · rw [if_pos hb2]
      exact ⟨h1, h2, h3⟩
    · rw [if_neg hb2]
      obtain ⟨a1, a2, a3⟩ :=
        erase_fold_inv ((m.memory_cache.map Prod.fst).filter
          (fun k => (b ++ "::").data.isPrefixOf k.data)) m.memory_cache m.access_order h1 h2
      exact ⟨a1, a2, le_trans a3 h3⟩

/-- `delete_branch` never changes the capacity, directory flag or active
branch. -/
theorem delete_branch_frame (m : StateManager) (b : String) :
    (m.delete_branch b).1.cache_size = m.cache_size ∧
    (m.delete_branch b).1.temp_dir_exists = m.temp_dir_exists ∧
    (m.delete_branch b).1.active_branch = m.active_branch := by
  unfold StateManager.delete_branch
  by_cases hb1 : b = "main"
  · rw [if_pos hb1]
    exact ⟨rfl, rfl, rfl⟩
  · rw [if_neg hb1]
    by_cases hb2 : b = m.active_branch
    · rw [if_pos hb2]
      exact ⟨rfl, rfl, rfl⟩
    · rw [if_neg hb2]
      exact ⟨rfl, rfl, rfl⟩

/-- `cleanup` establishes the cache invariant outright. -/
theorem cleanup_CacheInv (m : StateManager) : CacheInv m.cleanup :=
  ⟨List.nodup_nil, List.Perm.refl _, Nat.zero_le _⟩

/-- `reset` establishes the cache invariant outright. -/
theorem reset_CacheInv (m : StateManager) : CacheInv m.reset :=
  ⟨List.nodup_nil, List.Perm.refl _, Nat.zero_le _⟩

/-- Every public operation preserves the cache invariant. -/
theorem applyOp_CacheInv (m : StateManager) (op : Op) (h : CacheInv m) :
    CacheInv (applyOp m op) := by
  cases op with
  | commit sid df cfg d => exact commit_state_CacheInv m sid df cfg d h
  | load b s => exact load_state_CacheInv m b s h
  | fork nb c => exact create_branch_CacheInv m nb c h
  | switch b => exact switch_branch_CacheInv m b h
  | delete b => exact delete_branch_CacheInv m b h
  | purge => exact cleanup_CacheInv m
  | doReset => exact reset_CacheInv m

/-- No public operation ever changes the capacity. -/
theorem applyOp_cache_size (m : StateManager) (op : Op) :
    (applyOp m op).cache_size = m.cache_size := by
  cases op with
  | commit sid df cfg d => exact (commit_state_frame m sid df cfg d).1
  | load b s => exact (load_state_frame m b s).1
  | fork nb c => exact (create_branch_frame m nb c).1
  | switch b => exact (switch_branch_frame m b).1
  | delete b => exact (delete_branch_frame m b).1
  | purge => rfl
  | doReset => rfl

/-- Sequences of public operations preserve the cache invariant and the
capacity. -/
theorem runOps_CacheInv (ops : List Op) (m : StateManager) (h : CacheInv m) :
    CacheInv (runOps m ops) ∧ (runOps m ops).cache_size = m.cache_size := by
  induction ops generalizing m with
  | nil => exact ⟨h, rfl⟩
  | cons op ops ih =>
    obtain ⟨g1, g2⟩ := ih (applyOp m op) (applyOp_CacheInv m op h)
    exact ⟨g1, g2.trans (applyOp_cache_size m op)⟩

/-- C3: starting from a freshly constructed store with capacity
`n ≥ 1`, after any sequence of public operations (commit, load, fork,
switch, delete_branch, purge, reset) at most `n` dataset entries are
resident in the memory cache, and the capacity is still `n`. -/
theorem cache_respects_capacity (n k : Nat) (h : 1 ≤ n) (ops : List Op) :
    (runOps (StateManager.init n k) ops).memory_cache.length ≤ n ∧
    (runOps (StateManager.init n k) ops).cache_size = n := by
  have base : CacheInv (StateManager.init n k) :=
    ⟨List.nodup_nil, List.Perm.refl _, Nat.zero_le _⟩
  obtain ⟨⟨g1, g2, g3⟩, g4⟩ := runOps_CacheInv ops (StateManager.init n k) base
  exact ⟨le_trans g3 (le_of_eq g4), g4⟩

/-- Witness for `cache_respects_capacity` at capacity 1 and a concrete
operation sequence that commits twice and reloads. -/
theorem cache_respects_capacity_witness :
    (runOps (StateManager.init 1 0)
      [Op.commit "s1" dfA [] "d", Op.commit "s2" dfB [] "d",
       Op.load "main" "s1"]).memory_cache.length ≤ 1 ∧
    (runOps (StateManager.init 1 0)
      [Op.commit "s1" dfA [] "d", Op.commit "s2" dfB [] "d",
       Op.load "main" "s1"]).cache_size = 1 :=
  cache_respects_capacity 1 0 (by decide)
    [Op.commit "s1" dfA [] "d", Op.commit "s2" dfB [] "d", Op.load "main" "s1"]

/-! ### Exact characterizations of the cache operations -/

/-- `_add_to_cache` on a resident key only refreshes recency: the stored
dataframe is NOT updated. -/
theorem add_to_cache_resident (m : StateManager) (k : String) (df v : DataFrame)
    (h : lookupA m.memory_cache k = some v) :
    m.add_to_cache k df = (m.touch k, Except.ok ()) := by
  unfold StateManager.add_to_cache
  rw [h]
  rfl

/-- Under the cache invariant, with the temp directory present and a
positive capacity, the eviction loop completes normally. -/
theorem evictAll_ok (m : StateManager) (hinv : CacheInv m) (hsz : 1 ≤ m.cache_size)
    (hdir : m.temp_dir_exists = true) :
    (evictAll m.cache_size m.temp_dir_exists m.access_order m.memory_cache m.disk).result
        = Except.ok () := by
  obtain ⟨h1, h2, h3⟩ := hinv
  exact (evictAll_spec m.cache_size m.temp_dir_exists m.access_order m.memory_cache m.disk
    h1 h2).2.2.2.2.2 hsz hdir

/-- `_add_to_cache` on an absent key, when the eviction loop completes:
the new dataframe is inserted after the evictions. -/
theorem add_to_cache_absent_eq (m : StateManager) (k : String) (df : DataFrame)
    (hn : lookupA m.memory_cache k = none)
    (hok : (evictAll m.cache_size m.temp_dir_exists m.access_order m.memory_cache
        m.disk).result = Except.ok ()) :
    m.add_to_cache k df =
      ({ m with
          memory_cache := insertA (evictAll m.cache_size m.temp_dir_exists m.access_order
            m.memory_cache m.disk).cache k df,
          access_order := (evictAll m.cache_size m.temp_dir_exists m.access_order
            m.memory_cache m.disk).order ++ [k],
          disk := (evictAll m.cache_size m.temp_dir_exists m.access_order m.memory_cache
            m.disk).disk }, Except.ok ()) := by
  unfold StateManager.add_to_cache
  rw [hn]
  dsimp only
  rw [hok]
  rfl

/-- `load_state` of a resident key refreshes recency and returns the
cached value. -/
theorem load_state_resident (m : StateManager) (b s : String) (v : DataFrame)
    (h : lookupA m.memory_cache (stateKeyOf b s) = some v) :
    m.load_state b s = (m.touch (stateKeyOf b s), Except.ok v) := by
  unfold StateManager.load_state
  dsimp only
  rw [h]
  rfl

/-- The eviction loop only ever removes keys from the cache. -/
theorem evictAll_keys_subset (size : Nat) (dir : Bool) (order : List String)
    (cache disk : List (String × DataFrame)) (q : String)
    (hq : q ∈ (evictAll size dir order cache disk).cache.map Prod.fst) :
    q ∈ cache.map Prod.fst := by
  induction order generalizing cache disk with
  | nil =>
    rw [evictAll] at hq
    by_cases hlen : cache.length ≥ size
    · rw [if_pos hlen] at hq
      exact hq
    · rw [if_neg hlen] at hq
      exact hq
  | cons k rest ih =>
    rw [evictAll] at hq
    by_cases hlen : cache.length ≥ size
    · rw [if_pos hlen] at hq
      cases hl : lookupA cache k with
      | none =>
        rw [hl] at hq
        exact hq
      | some df =>
        rw [hl] at hq
        dsimp only at hq
        by_cases hdir : dir = true
        · rw [if_pos hdir] at hq
          have h2 := ih (eraseA cache k) (insertA disk (diskNameOf k) df) hq
          rw [eraseA_keys] at h2
          exact List.mem_of_mem_erase h2
        · rw [if_neg hdir] at hq
          dsimp only at hq
          rw [eraseA_keys] at hq
          exact List.mem_of_mem_erase hq
    · rw [if_neg hlen] at hq
      exact hq

/-- `_add_to_cache` on an absent key, when the eviction loop raises: the
partially evicted cache is kept and the insertion never happens. -/
theorem add_to_cache_absent_error_eq (m : StateManager) (k : String) (df : DataFrame)
    (e : Err) (hn : lookupA m.memory_cache k = none)
    (herr : (evictAll m.cache_size m.temp_dir_exists m.access_order m.memory_cache
        m.disk).result = Except.error e) :
    m.add_to_cache k df =
      ({ m with
          memory_cache := (evictAll m.cache_size m.temp_dir_exists m.access_order
            m.memory_cache m.disk).cache,
          access_order := (evictAll m.cache_size m.temp_dir_exists m.access_order
            m.memory_cache m.disk).order,
          disk := (evictAll m.cache_size m.temp_dir_exists m.access_order m.memory_cache
            m.disk).disk }, Except.error e) := by
  unfold StateManager.add_to_cache
  rw [hn]
  dsimp only
  rw [herr]
  rfl

/-- `load_state` touches at most the cache entry it was asked for: a
distinct absent key stays absent. -/
theorem load_state_other_key_stays_absent (m : StateManager) (b s q : String)
    (hq : q ≠ stateKeyOf b s) (h0 : lookupA m.memory_cache q = none) :
    lookupA (m.load_state b s).1.memory_cache q = none := by
  have hq0 : q ∉ m.memory_cache.map Prod.fst := (lookupA_eq_none_iff _ _).1 h0
  cases hC : lookupA m.memory_cache (stateKeyOf b s) with
  | some df =>
    rw [load_state_resident m b s df hC]
    exact h0
  | none =>
    unfold StateManager.load_state
    dsimp only
    rw [hC]
    cases hD : lookupA m.disk (diskNameOf (stateKeyOf b s)) with
    | none =>
      exact h0
    | some df =>
      dsimp only
      cases hE : (evictAll m.cache_size m.temp_dir_exists m.access_order m.memory_cache
          m.disk).result with
      | ok u =>
        cases u
        rw [add_to_cache_absent_eq m (stateKeyOf b s) df hC hE]
        dsimp only
        rw [lookupA_insertA_ne _ _ _ _ hq, lookupA_eq_none_iff]
        intro hmem
        exact hq0 (evictAll_keys_subset m.cache_size m.temp_dir_exists m.access_order
          m.memory_cache m.disk q hmem)
      | error e =>
        rw [add_to_cache_absent_error_eq m (stateKeyOf b s) df e hC hE]
        dsimp only
        rw [lookupA_eq_none_iff]
        intro hmem
        exact hq0 (evictAll_keys_subset m.cache_size m.temp_dir_exists m.access_order
          m.memory_cache m.disk q hmem)

/-- `commit_state` on an already-resident key: the record is appended, but
the cache keeps the OLD dataframe (only recency is refreshed). -/
theorem commit_state_resident_eq (m : StateManager) (sid : String) (df : DataFrame)
    (cfg : Config) (d : String) (br : Branch) (v : DataFrame)
    (hbr : lookupA m.branches m.active_branch = some br)
    (hres : lookupA m.memory_cache (stateKeyOf m.active_branch sid) = some v) :
    m.commit_state sid df cfg d =
      ({ m.touch (stateKeyOf m.active_branch sid) with
          clock := m.clock + 1,
          branches := insertA m.branches m.active_branch
            { br with states := br.states ++
              [{ id := sid, parent := (br.states.getLast?).map StateRecord.id,
                 timestamp := m.clock, data_hash := computeHash df,
                 row_count := df.rows.length, col_count := df.cols.length,
                 config_snapshot := cfg, delta_summary := d }] } }, Except.ok ()) := by
  unfold StateManager.commit_state
  dsimp only
  rw [add_to_cache_resident m _ df.copy v hres]
  dsimp only
  rw [(touch_frame m (stateKeyOf m.active_branch sid)).2.2.2.1,
      (touch_frame m (stateKeyOf m.active_branch sid)).2.2.2.2.1, hbr]
  rfl

/-- `commit_state` on an absent key (with a completing eviction loop):
the record is appended and the new dataframe is inserted into the cache. -/
theorem commit_state_absent_spec (m : StateManager) (sid : String) (df : DataFrame)
    (cfg : Config) (d : String) (br : Branch)
    (hbr : lookupA m.branches m.active_branch = some br)
    (hn : lookupA m.memory_cache (stateKeyOf m.active_branch sid) = none)
    (hok : (evictAll m.cache_size m.temp_dir_exists m.access_order m.memory_cache
        m.disk).result = Except.ok ()) :
    (m.commit_state sid df cfg d).2 = Except.ok () ∧
    lookupA (m.commit_state sid df cfg d).1.memory_cache
        (stateKeyOf m.active_branch sid) = some df ∧
    (m.commit_state sid df cfg d).1.active_branch = m.active_branch ∧
    (m.commit_state sid df cfg d).1.cache_size = m.cache_size ∧
    (m.commit_state sid df cfg d).1.temp_dir_exists = m.temp_dir_exists ∧
    lookupA (m.commit_state sid df cfg d).1.branches m.active_branch =
      some { br with states := br.states ++
        [{ id := sid, parent := (br.states.getLast?).map StateRecord.id,
           timestamp := m.clock, data_hash := computeHash df,
           row_count := df.rows.length, col_count := df.cols.length,
           config_snapshot := cfg, delta_summary := d }] } ∧
    (∀ b2, b2 ≠ m.active_branch →
      lookupA (m.commit_state sid df cfg d).1.branches b2 = lookupA m.branches b2) := by
  unfold StateManager.commit_state
  dsimp only
  rw [add_to_cache_absent_eq m _ df.copy hn hok]
  dsimp only
  rw [hbr]
  dsimp only
  refine ⟨rfl, ?_, rfl, rfl, rfl, ?_, ?_⟩
  · exact lookupA_insertA_self _ _ _
  · exact lookupA_insertA_self _ _ _
  · intro b2 hb2
    exact lookupA_insertA_ne _ _ _ _ hb2

/-- C4 (amended): immediately after `commit_state` the cache entry for
(active branch, id) holds the newly committed `df` only when that key was
not already resident; a resident key keeps the PREVIOUSLY cached dataset
(only its recency is refreshed), and a load right after the commit returns
that previously cached dataset rather than `df`. -/
theorem commit_refreshes_recency_not_value (m : StateManager) (sid : String)
    (df : DataFrame) (cfg : Config) (d : String) (br : Branch)
    (hbr : lookupA m.branches m.active_branch = some br) :
    (∀ v, lookupA m.memory_cache (stateKeyOf m.active_branch sid) = some v →
      (m.commit_state sid df cfg d).2 = Except.ok () ∧
      lookupA (m.commit_state sid df cfg d).1.memory_cache
        (stateKeyOf m.active_branch sid) = some v ∧
      ((m.commit_state sid df cfg d).1.load_state m.active_branch sid).2
        = Except.ok v) ∧
    (CacheInv m → 1 ≤ m.cache_size → m.temp_dir_exists = true →
      lookupA m.memory_cache (stateKeyOf m.active_branch sid) = none →
      (m.commit_state sid df cfg d).2 = Except.ok () ∧
      lookupA (m.commit_state sid df cfg d).1.memory_cache
        (stateKeyOf m.active_branch sid) = some df ∧
      ((m.commit_state sid df cfg d).1.load_state m.active_branch sid).2
        = Except.ok df) := by
  constructor
  · intro v hres
    have heq := commit_state_resident_eq m sid df cfg d br v hbr hres
    have h2 : lookupA (m.commit_state sid df cfg d).1.memory_cache
        (stateKeyOf m.active_branch sid) = some v := by
      rw [heq]
      exact hres
    refine ⟨by rw [heq], h2, ?_⟩
    rw [load_state_resident (m.commit_state sid df cfg d).1 m.active_branch sid v h2]
  · intro hinv hsz hdir hn
    obtain ⟨g1, g2, g3, g4, g5, g6, g7⟩ :=
      commit_state_absent_spec m sid df cfg d br hbr hn (evictAll_ok m hinv hsz hdir)
    refine ⟨g1, g2, ?_⟩
    have hload := load_state_resident (m.commit_state sid df cfg d).1
      m.active_branch sid df g2
    rw [hload]

/-- Witness for `commit_refreshes_recency_not_value`: on a store where
`main::s` is resident with `dfA`, re-committing id `s` with `dfB` leaves
`dfA` in the cache and a load returns `dfA`. -/
theorem commit_refreshes_recency_not_value_witness :
    (((StateManager.init 5 0).commit_state "s" dfA [] "first").1.commit_state
        "s" dfB [] "second").2 = Except.ok () ∧
    lookupA ((((StateManager.init 5 0).commit_state "s" dfA [] "first").1.commit_state
        "s" dfB [] "second").1.memory_cache) "main::s" = some dfA ∧
    (((((StateManager.init 5 0).commit_state "s" dfA [] "first").1.commit_state
        "s" dfB [] "second").1.load_state "main" "s")).2 = Except.ok dfA := by
  cases hbr : lookupA ((StateManager.init 5 0).commit_state "s" dfA [] "first").1.branches
      ((StateManager.init 5 0).commit_state "s" dfA [] "first").1.active_branch with
  | none => exact absurd hbr (by decide)
  | some br =>
    exact (commit_refreshes_recency_not_value
      ((StateManager.init 5 0).commit_state "s" dfA [] "first").1
      "s" dfB [] "second" br hbr).1 dfA (by decide)

/-- `_get_config_at_state`'s scan skips records whose id does not match. -/
theorem findConfig_append (l1 l2 : List StateRecord) (sid : String)
    (h : ∀ st ∈ l1, st.id ≠ sid) :
    findConfig (l1 ++ l2) sid = findConfig l2 sid := by
  induction l1 with
  | nil => rfl
  | cons st rest ih =>
    have hst : st.id ≠ sid := h st (List.mem_cons_self st rest)
    simp only [List.cons_append, findConfig, if_neg hst]
    exact ih (fun s2 hs2 => h s2 (List.mem_cons_of_mem st hs2))

/-- C5 (amended): when a branch's history acquires two records with the
same id through two commits (the first commit's key staying resident),
find/load operate on the EARLIEST occurrence: `_get_config_at_state`
returns the config of the FIRST record with that id and `load_state`
returns the dataset of the FIRST commit, even though the terminal record
of the history carries the second commit's metadata. -/
theorem duplicate_id_first_occurrence_semantics (m : StateManager) (sid : String)
    (df1 df2 : DataFrame) (cfg1 cfg2 : Config) (d1 d2 : String) (br : Branch)
    (hbr : lookupA m.branches m.active_branch = some br)
    (hfresh : ∀ st ∈ br.states, st.id ≠ sid)
    (hinv : CacheInv m) (hsz : 1 ≤ m.cache_size) (hdir : m.temp_dir_exists = true)
    (hn : lookupA m.memory_cache (stateKeyOf m.active_branch sid) = none) :
    ((m.commit_state sid df1 cfg1 d1).1.commit_state sid df2 cfg2 d2).2 = Except.ok () ∧
    (((m.commit_state sid df1 cfg1 d1).1.commit_state sid df2 cfg2 d2).1.load_state
        m.active_branch sid).2 = Except.ok df1 ∧
    ((m.commit_state sid df1 cfg1 d1).1.commit_state sid df2 cfg2 d2).1.get_config_at_state
        m.active_branch sid = Except.ok cfg1 ∧
    ((lookupA ((m.commit_state sid df1 cfg1 d1).1.commit_state sid df2 cfg2 d2).1.branches
        m.active_branch).map fun b2 => b2.states.map StateRecord.id)
      = some (br.states.map StateRecord.id ++ [sid, sid]) ∧
    ((lookupA ((m.commit_state sid df1 cfg1 d1).1.commit_state sid df2 cfg2 d2).1.branches
        m.active_branch).map fun b2 =>
          (b2.states.getLast?).map StateRecord.config_snapshot) = some (some cfg2) := by
  obtain ⟨g1, g2, g3, g4, g5, g6, g7⟩ :=
    commit_state_absent_spec m sid df1 cfg1 d1 br hbr hn (evictAll_ok m hinv hsz hdir)
  have hbr1 : lookupA (m.commit_state sid df1 cfg1 d1).1.branches
      (m.commit_state sid df1 cfg1 d1).1.active_branch =
      some { br with states := br.states ++
        [{ id := sid, parent := (br.states.getLast?).map StateRecord.id,
           timestamp := m.clock, data_hash := computeHash df1,
           row_count := df1.rows.length, col_count := df1.cols.length,
           config_snapshot := cfg1, delta_summary := d1 }] } := by
    rw [g3]
    exact g6
  have hres1 : lookupA (m.commit_state sid df1 cfg1 d1).1.memory_cache
      (stateKeyOf (m.commit_state sid df1 cfg1 d1).1.active_branch sid) = some df1 := by
    rw [g3]
    exact g2
  have heq2 := commit_state_resident_eq (m.commit_state sid df1 cfg1 d1).1 sid df2 cfg2 d2
    _ df1 hbr1 hres1
  have h2 : lookupA ((m.commit_state sid df1 cfg1 d1).1.commit_state
      sid df2 cfg2 d2).1.memory_cache (stateKeyOf m.active_branch sid) = some df1 := by
    rw [heq2]
    rw [← g3]
    exact hres1
  have hb2 : lookupA ((m.commit_state sid df1 cfg1 d1).1.commit_state
      sid df2 cfg2 d2).1.branches m.active_branch =
      some { br with states := (br.states ++
        [{ id := sid, parent := (br.states.getLast?).map StateRecord.id,
           timestamp := m.clock, data_hash := computeHash df1,
           row_count := df1.rows.length, col_count := df1.cols.length,
           config_snapshot := cfg1, delta_summary := d1 }]) ++
        [{ id := sid, parent := some sid,
           timestamp := (m.commit_state sid df1 cfg1 d1).1.clock,
           data_hash := computeHash df2,
           row_count := df2.rows.length, col_count := df2.cols.length,
           config_snapshot := cfg2, delta_summary := d2 }] } := by
    rw [heq2]
    dsimp only
    rw [← g3, lookupA_insertA_self]
    simp [List.getLast?_concat]
  refine ⟨by rw [heq2], ?_, ?_, ?_, ?_⟩
  · rw [load_state_resident ((m.commit_state sid df1 cfg1 d1).1.commit_state
      sid df2 cfg2 d2).1 m.active_branch sid df1 h2]
  · unfold StateManager.get_config_at_state
    rw [hb2]
    dsimp only
    rw [List.append_assoc,
      findConfig_append br.states _ sid hfresh]
    simp [findConfig]
  · rw [hb2]
    simp
  · rw [hb2]
    simp [List.getLast?_concat]

/-- Witness for `duplicate_id_first_occurrence_semantics` on a fresh
store: after committing id `s` with `(dfA, mean)` and again with
`(dfB, median)`, load yields `dfA` and the config lookup yields `mean`,
while the terminal record carries `median`. -/
theorem duplicate_id_first_occurrence_witness :
    (((StateManager.init 5 0).commit_state "s" dfA [("imputation", "mean")] "first").1.commit_state
        "s" dfB [("imputation", "median")] "second").2 = Except.ok () ∧
    ((((StateManager.init 5 0).commit_state "s" dfA [("imputation", "mean")] "first").1.commit_state
        "s" dfB [("imputation", "median")] "second").1.load_state "main" "s").2
      = Except.ok dfA ∧
    (((StateManager.init 5 0).commit_state "s" dfA [("imputation", "mean")] "first").1.commit_state
        "s" dfB [("imputation", "median")] "second").1.get_config_at_state "main" "s"
      = Except.ok [("imputation", "mean")] := by
  obtain ⟨w1, w2, w3, w4, w5⟩ := duplicate_id_first_occurrence_semantics
    (StateManager.init 5 0) "s" dfA dfB [("imputation", "mean")] [("imputation", "median")]
    "first" "second" { created_at := 0, forked_from := none, states := [] }
    (by decide) (by intro st hst; simp at hst) ⟨List.nodup_nil, List.Perm.refl _, Nat.zero_le _⟩
    (by decide) (by decide) (by decide)
  exact ⟨w1, w2, w3⟩

/-- Lookup characterization of the removal loop of `delete_branch`: the
listed keys are gone, every other key is untouched. -/
theorem erase_fold_lookup (S : List String) (cache : List (String × DataFrame))
    (order : List String) (q : String) (hnd : (cache.map Prod.fst).Nodup) :
    lookupA (S.foldl erasePairStep (cache, order)).1 q
      = if q ∈ S then none else lookupA cache q := by
  induction S generalizing cache order with
  | nil => simp
  | cons k S ih =>
    simp only [List.foldl_cons, erasePairStep]
    have hnd2 : ((eraseA cache k).map Prod.fst).Nodup := by
      rw [eraseA_keys]
      exact hnd.erase k
    rw [ih (eraseA cache k) _ hnd2]
    by_cases hqS : q ∈ S
    · simp [hqS]
    · by_cases hqk : q = k
      · subst hqk
        simp [hqS, lookupA_eraseA_self cache q hnd]
      · simp [hqS, hqk, lookupA_eraseA_ne cache k q hqk]

/-- C7 (amended): `delete_branch` rejects the default and the active
branch with two distinct errors; otherwise it removes the branch from the
registry, the cache entries whose key starts with `b + "::"`, and the
spill files matching the glob `b + "__*.parquet"`, leaving every other
registry entry and cache entry unchanged — but spill files of any OTHER
branch whose encoded file name also starts with `b + "__"` (for example a
branch literally named `b + "__2"`) are deleted as well, since file
matching is by name prefix, not by exact branch component. -/
theorem delete_branch_semantics (m : StateManager) (b : String)
    (hndc : (m.memory_cache.map Prod.fst).Nodup)
    (hndb : (m.branches.map Prod.fst).Nodup) :
    (b = "main" → m.delete_branch b = (m, Except.error Err.cannotDeleteMain)) ∧
    (b ≠ "main" → b = m.active_branch →
      m.delete_branch b = (m, Except.error Err.cannotDeleteActive)) ∧
    Err.cannotDeleteMain ≠ Err.cannotDeleteActive ∧
    (b ≠ "main" → b ≠ m.active_branch →
      (m.delete_branch b).2 = Except.ok () ∧
      (m.delete_branch b).1.active_branch = m.active_branch ∧
      lookupA (m.delete_branch b).1.branches b = none ∧
      (∀ b2, b2 ≠ b →
        lookupA (m.delete_branch b).1.branches b2 = lookupA m.branches b2) ∧
      (∀ q, lookupA (m.delete_branch b).1.memory_cache q
          = if (b ++ "::").data.isPrefixOf q.data = true then none
            else lookupA m.memory_cache q) ∧
      (∀ f, lookupA (m.delete_branch b).1.disk f
          = if matchesGlob b f = true then none else lookupA m.disk f)) := by
  refine ⟨?_, ?_, by decide, ?_⟩
  · intro h1
    unfold StateManager.delete_branch
    rw [if_pos h1]
  · intro h1 h2
    unfold StateManager.delete_branch
    rw [if_neg h1, if_pos h2]
  · intro h1 h2
    unfold StateManager.delete_branch
    rw [if_neg h1, if_neg h2]
    dsimp only
    refine ⟨rfl, rfl, ?_, ?_, ?_, ?_⟩
    · exact lookupA_eraseA_self m.branches b hndb
    · intro b2 hb2
      exact lookupA_eraseA_ne m.branches b b2 hb2
    · intro q
      rw [erase_fold_lookup _ m.memory_cache m.access_order q hndc]
      by_cases hpre : (b ++ "::").data.isPrefixOf q.data = true
      · rw [if_pos hpre]
        by_cases hmem : q ∈ m.memory_cache.map Prod.fst
        · rw [if_pos (List.mem_filter.2 ⟨hmem, hpre⟩)]
        · rw [if_neg (fun hq => hmem (List.mem_filter.1 hq).1)]
          exact (lookupA_eq_none_iff _ _).2 hmem
      · rw [if_neg hpre]
        have hnot : q ∉ (m.memory_cache.map Prod.fst).filter
            (fun k => (b ++ "::").data.isPrefixOf k.data) := by
          intro hq
          exact hpre (List.mem_filter.1 hq).2
        rw [if_neg hnot]
    · intro f
      rw [lookupA_filter m.disk (fun x => !(matchesGlob b x)) f]
      by_cases hg : matchesGlob b f = true
      · rw [if_pos hg, if_neg]
        simp [hg]
      · rw [if_neg hg, if_pos]
        simp [hg]

/-- Witness for `delete_branch_semantics` on the concrete store with
branches `main`, `exp__2` and `exp`: deleting `exp` succeeds, removes it
from the registry, and (by the file-name-prefix matching) also removes
branch `exp__2`'s spill file. -/
theorem delete_branch_semantics_witness :
    (deleteCollision.delete_branch "exp").2 = Except.ok () ∧
    lookupA (deleteCollision.delete_branch "exp").1.branches "exp" = none ∧
    (lookupA (deleteCollision.delete_branch "exp").1.branches "exp__2").isSome = true ∧
    lookupA (deleteCollision.delete_branch "exp").1.disk "exp__2__s1.parquet" = none := by
  obtain ⟨-, -, -, h4⟩ := delete_branch_semantics deleteCollision "exp" (by decide) (by decide)
  obtain ⟨g1, g2, g3, g4, g5, g6⟩ := h4 (by decide) (by decide)
  refine ⟨g1, g3, ?_, ?_⟩
  · rw [g4 "exp__2" (by decide)]
    decide
  · rw [g6 "exp__2__s1.parquet", if_pos (by decide)]

/-- C8 (amended): `export_pipeline` always writes the full branch-registry
serialization and the active-branch marker, and writes the active branch's
terminal config only when that branch has history; the origin dataset
artifact is written only when `main::df_raw` loads successfully — a
`StateNotFoundError` from that load is SWALLOWED (`except ...: pass`) and
the export succeeds without the artifact instead of returning the error to
the caller. -/
theorem export_pipeline_semantics (m : StateManager) (br : Branch)
    (hbr : lookupA m.branches m.active_branch = some br) :
    (∀ m1 k2, m.load_state "main" "df_raw" = (m1, Except.error (Err.stateNotFound k2)) →
      m.export_pipeline = (m1, Except.ok
        { df_raw_parquet := none, state_store_branches := m.branches,
          state_store_active := m.active_branch,
          pipeline_config := (br.states.getLast?).map StateRecord.config_snapshot })) ∧
    (∀ m1 df, m.load_state "main" "df_raw" = (m1, Except.ok df) →
      m.export_pipeline = (m1, Except.ok
        { df_raw_parquet := some df, state_store_branches := m.branches,
          state_store_active := m.active_branch,
          pipeline_config := (br.states.getLast?).map StateRecord.config_snapshot })) := by
  have hfr := load_state_frame m "main" "df_raw"
  constructor
  · intro m1 k2 hl
    rw [hl] at hfr
    unfold StateManager.export_pipeline
    rw [hl]
    dsimp only
    unfold StateManager.export_rest
    rw [hfr.2.2.1, hfr.2.2.2.1, hbr]
  · intro m1 df hl
    rw [hl] at hfr
    unfold StateManager.export_pipeline
    rw [hl]
    dsimp only
    unfold StateManager.export_rest
    rw [hfr.2.2.1, hfr.2.2.2.1, hbr]

/-- Witness for `export_pipeline_semantics` on a fresh store: the origin
load fails with `StateNotFoundError`, and export succeeds with no origin
artifact and no config artifact. -/
theorem export_pipeline_semantics_witness :
    (StateManager.init 5 0).export_pipeline
      = (StateManager.init 5 0, Except.ok
          { df_raw_parquet := none,
            state_store_branches :=
              [("main", { created_at := 0, forked_from := none, states := [] })],
            state_store_active := "main",
            pipeline_config := none }) :=
  (export_pipeline_semantics (StateManager.init 5 0)
    { created_at := 0, forked_from := none, states := [] } (by decide)).1
    (StateManager.init 5 0) "main::df_raw" (by decide)

/-- The final commit of `create_branch`, performed on a store whose active
branch is the freshly inserted empty branch: the new history is exactly
one record carrying the fork-point id, and the branch's current state
loads back exactly the committed dataset. -/
theorem fork_commit_spec (m4 : StateManager) (c : String) (df : DataFrame)
    (cfg : Config) (dstr : String) (nbr : Branch) (hstates : nbr.states = [])
    (hbr4 : lookupA m4.branches m4.active_branch = some nbr)
    (hn4 : lookupA m4.memory_cache (stateKeyOf m4.active_branch c) = none)
    (hok : (evictAll m4.cache_size m4.temp_dir_exists m4.access_order m4.memory_cache
        m4.disk).result = Except.ok ()) :
    (m4.commit_state c df cfg dstr).2 = Except.ok () ∧
    ((lookupA (m4.commit_state c df cfg dstr).1.branches m4.active_branch).map
        fun b2 => b2.states.map StateRecord.id) = some [c] ∧
    ((m4.commit_state c df cfg dstr).1.get_current_state).2 = Except.ok (some df) := by
  obtain ⟨g1, g2, g3, g4, g5, g6, g7⟩ :=
    commit_state_absent_spec m4 c df cfg dstr nbr hbr4 hn4 hok
  rw [hstates] at g6
  simp only [List.nil_append, Option.map_none', List.getLast?_nil] at g6
  refine ⟨g1, ?_, ?_⟩
  · rw [g6]
    rfl
  · unfold StateManager.get_current_state
    rw [g3, g6]
    dsimp only
    rw [List.getLast?_singleton]
    dsimp only
    rw [load_state_resident (m4.commit_state c df cfg dstr).1 m4.active_branch c df g2]

/-- C9 (amended): on a store satisfying the cache invariant, with the temp
directory present and a positive capacity, forking a new branch `nb` from
checkpoint `c` of the active branch succeeds, the new branch's history is
exactly one record carrying id `c`, and loading the new branch's current
state returns exactly the dataset that loading `c` from the active branch
produced — PROVIDED the cache holds no entry under the new branch's key
`nb::c` at fork time.  (When such an entry exists — reachable through
branch names containing `::`, whose cache keys and spill-file names
collide with other branches' keys — the stale resident dataset is returned
instead; see the counterexample.) -/
theorem fork_round_trip_modulo_key_collision (m m1 : StateManager) (nb c : String)
    (df : DataFrame) (br : Branch)
    (hinv : CacheInv m) (hsz : 1 ≤ m.cache_size) (hdir : m.temp_dir_exists = true)
    (hbr : lookupA m.branches m.active_branch = some br)
    (hload : m.load_state m.active_branch c = (m1, Except.ok df))
    (hkey : lookupA m.memory_cache (stateKeyOf nb c) = none)
    (hne : stateKeyOf nb c ≠ stateKeyOf m.active_branch c) :
    (m.create_branch nb c).2 = Except.ok () ∧
    ((lookupA (m.create_branch nb c).1.branches nb).map
        fun b2 => b2.states.map StateRecord.id) = some [c] ∧
    ((m.create_branch nb c).1.get_current_state).2 = Except.ok (some df) := by
  have hfr := load_state_frame m m.active_branch c
  rw [hload] at hfr
  have hinv1 : CacheInv m1 := by
    have h2 := load_state_CacheInv m m.active_branch c hinv
    rw [hload] at h2
    exact h2
  have hkey1 : lookupA m1.memory_cache (stateKeyOf nb c) = none := by
    have h2 := load_state_other_key_stays_absent m m.active_branch c (stateKeyOf nb c)
      hne hkey
    rw [hload] at h2
    exact h2
  have hg : m1.get_config_at_state m.active_branch c
      = Except.ok (findConfig br.states c) := by
    unfold StateManager.get_config_at_state
    rw [hfr.2.2.1, hbr]
  unfold StateManager.create_branch
  dsimp only
  rw [hload]
  dsimp only
  rw [hg]
  dsimp only
  have hbr4 : lookupA (insertA m1.branches nb
      { created_at := m1.clock, forked_from := some (m.active_branch, c), states := [] }) nb
      = some { created_at := m1.clock, forked_from := some (m.active_branch, c),
               states := [] } :=
    lookupA_insertA_self _ _ _
  have hspec := fork_commit_spec
    { m1 with
        clock := m1.clock + 1,
        branches := insertA m1.branches nb
          { created_at := m1.clock, forked_from := some (m.active_branch, c), states := [] },
        active_branch := nb }
    c df (findConfig br.states c) ("Forked from " ++ m.active_branch ++ "::" ++ c)
    { created_at := m1.clock, forked_from := some (m.active_branch, c), states := [] }
    rfl hbr4 hkey1
    (evictAll_ok _ (CacheInv_of_fields hinv1 rfl rfl rfl)
      (by rw [show ({ m1 with
          clock := m1.clock + 1,
          branches := insertA m1.branches nb
            { created_at := m1.clock, forked_from := some (m.active_branch, c),
              states := [] },
          active_branch := nb } : StateManager).cache_size = m1.cache_size from rfl,
        hfr.1]; exact hsz)
      (by rw [show ({ m1 with
          clock := m1.clock + 1,
          branches := insertA m1.branches nb
            { created_at := m1.clock, forked_from := some (m.active_branch, c),
              states := [] },
          active_branch := nb } : StateManager).temp_dir_exists = m1.temp_dir_exists from rfl,
        hfr.2.1]; exact hdir))
  exact hspec

/-- Witness for `fork_round_trip_modulo_key_collision`: committing `s`
on a fresh capacity-2 store and forking branch `b` from it round-trips,
returning exactly the committed dataset. -/
theorem fork_round_trip_witness :
    (((StateManager.init 2 0).commit_state "s" dfA [] "d").1.create_branch "b" "s").2
        = Except.ok () ∧
    ((lookupA (((StateManager.init 2 0).commit_state "s" dfA [] "d").1.create_branch
        "b" "s").1.branches "b").map fun b2 => b2.states.map StateRecord.id)
      = some ["s"] ∧
    ((((StateManager.init 2 0).commit_state "s" dfA [] "d").1.create_branch
        "b" "s").1.get_current_state).2 = Except.ok (some dfA) := by
  cases hbr : lookupA ((StateManager.init 2 0).commit_state "s" dfA [] "d").1.branches
      ((StateManager.init 2 0).commit_state "s" dfA [] "d").1.active_branch with
  | none => exact absurd hbr (by decide)
  | some br =>
    exact fork_round_trip_modulo_key_collision
      ((StateManager.init 2 0).commit_state "s" dfA [] "d").1
      (((StateManager.init 2 0).commit_state "s" dfA [] "d").1.load_state "main" "s").1
      "b" "s" dfA br
      ⟨by decide, List.Perm.refl ["main::s"], by decide⟩ (by decide) (by decide) hbr
      (by decide) (by decide) (by decide)
